import Mathlib

/-!
Verification of `src/tools/generate_vqa_dataset.py`.

The script is embedded shallowly: Python values that can appear in the
parsed JSON records are modelled by `PyVal`, records (JSON objects) by
association lists `PyDict`, and Python exceptions by `Except String`.
Each Lean definition below is a direct translation of the corresponding
Python function; evaluation order and exception propagation follow the
source.
-/

set_option autoImplicit false

/-- A Python value as it can appear in a parsed JSON record:
`None`, booleans, integers, strings and lists. -/
inductive PyVal where
  | none
  | bool (b : Bool)
  | int (n : Int)
  | str (s : String)
  | list (l : List PyVal)

/-- A Python dict with string keys, as produced by parsing a JSON object. -/
def PyDict : Type := List (String × PyVal)

/-- Python truthiness (`bool(v)`) for the modelled values. -/
def truthy : PyVal → Bool
  | PyVal.none => false
  | PyVal.bool b => b
  | PyVal.int n => decide (n ≠ 0)
  | PyVal.str s => decide (s ≠ "")
  | PyVal.list l => !l.isEmpty

/-- Python `a or b`: `a` if truthy, else `b`. -/
def pyOr (a b : PyVal) : PyVal := if truthy a then a else b

/-- Python `a or b` specialised to strings (the empty string is falsy). -/
def pyOrS (a b : String) : String := if a = "" then b else a

/-- Python `d.get(k, dflt)` on a dict: value of the first binding of `k`,
else the default. -/
def pyGet : PyDict → String → PyVal → PyVal
  | [], _, dflt => dflt
  | (k', v) :: rest, k, dflt => if k' = k then v else pyGet rest k dflt

mutual

/-- Python `repr(v)` for the modelled values (string escaping inside
nested reprs is not modelled). -/
def pyRepr : PyVal → String
  | PyVal.none => "None"
  | PyVal.bool true => "True"
  | PyVal.bool false => "False"
  | PyVal.int n => toString n
  | PyVal.str s => "'" ++ s ++ "'"
  | PyVal.list l => "[" ++ pyReprList l ++ "]"

/-- Comma-separated reprs of the elements of a list. -/
def pyReprList : List PyVal → String
  | [] => ""
  | [a] => pyRepr a
  | a :: b :: rest => pyRepr a ++ ", " ++ pyReprList (b :: rest)

end

/-- Python `str(v)` (f-string rendering): strings render as themselves,
every other value as its repr. -/
def pyStr : PyVal → String
  | PyVal.str s => s
  | v => pyRepr v

/-- Python `iter(v)`: lists yield their elements, strings their characters
as one-character strings; other modelled values raise `TypeError`. -/
def pyIter : PyVal → Except String (List PyVal)
  | PyVal.list l => Except.ok l
  | PyVal.str s => Except.ok (s.data.map (fun c => PyVal.str (String.mk [c])))
  | _ => Except.error "TypeError"

/-- Does `k` occur as a prefix of `s`?  (over character lists) -/
def isPref : List Char → List Char → Bool
  | [], _ => true
  | _ :: _, [] => false
  | a :: as, b :: bs => a = b && isPref as bs

/-- Does `k` occur as a contiguous substring of `s`?  (over character lists) -/
def hasSub (k : List Char) : List Char → Bool
  | [] => isPref k []
  | s :: rest => isPref k (s :: rest) || hasSub k rest

/-- Python `k in s` for strings: case-sensitive substring containment. -/
def containsSub (k s : String) : Bool := hasSub k.data s.data

/-- Python `k in v` for a string `k`: substring test on strings,
membership test on lists; other modelled values raise `TypeError`. -/
def pyIn (k : String) (v : PyVal) : Except String Bool :=
  match v with
  | PyVal.str s => Except.ok (containsSub k s)
  | PyVal.list l => Except.ok (l.any (fun x => match x with | PyVal.str s => s == k | _ => false))
  | _ => Except.error "TypeError"

/-- Python `s.strip()`: drop leading and trailing whitespace. -/
def pyStrip (s : String) : String :=
  String.mk (((s.data.dropWhile Char.isWhitespace).reverse.dropWhile Char.isWhitespace).reverse)

/-- Worker for `splitWs`: `acc` holds the reversed characters of the
current (possibly empty) in-progress word. -/
def splitWsAux : List Char → List Char → List String
  | [], acc => if acc.isEmpty then [] else [String.mk acc.reverse]
  | c :: cs, acc =>
    if c.isWhitespace then
      if acc.isEmpty then splitWsAux cs [] else String.mk acc.reverse :: splitWsAux cs []
    else splitWsAux cs (c :: acc)

/-- The words of `s.split()` (split on whitespace runs, no empty words),
over character lists. -/
def splitWs (l : List Char) : List String := splitWsAux l []

/-- Python `len(s.split())`: the number of whitespace-delimited words. -/
def pyWordCount (s : String) : Nat := (splitWs s.data).length

/-- Source `norm`: `(text or "").replace("_", " ")`.  For a string
argument this replaces each underscore character by a space. -/
def norm (s : String) : String :=
  String.mk (s.data.map (fun c => if c = '_' then ' ' else c))

/-- Source `norm` applied to an arbitrary Python value: `text or ""` keeps
a truthy value, which must then be a string for `.replace` to exist;
otherwise Python raises `AttributeError`. -/
def normV (v : PyVal) : Except String String :=
  match pyOr v (PyVal.str "") with
  | PyVal.str s => Except.ok (norm s)
  | _ => Except.error "AttributeError"

/-- The loop of `short_tools_text`: walk the items, keep normalized
nonempty unseen entries, stop as soon as three are collected. -/
def short_tools_go : List PyVal → List String → List String → Except String (List String)
  | [], _, clean => Except.ok clean
  | t :: ts, seen, clean =>
    match normV t with
    | Except.error e => Except.error e
    | Except.ok n =>
      let t_clean := pyStrip n
      let seen' := if t_clean ≠ "" ∧ t_clean ∉ seen then seen ++ [t_clean] else seen
      let clean' := if t_clean ≠ "" ∧ t_clean ∉ seen then clean ++ [t_clean] else clean
      if 3 ≤ clean'.length then Except.ok clean' else short_tools_go ts seen' clean'

/-- The join policy at the end of `short_tools_text`. -/
def joinTools : List String → String
  | [] => ""
  | [a] => a
  | [a, b] => a ++ " and " ++ b
  | a :: b :: c :: _ => a ++ ", " ++ b ++ ", and " ++ c

/-- Source `short_tools_text`: compose a short textual list of up to three
tools.  Iterates whatever Python value `tools` is. -/
def short_tools_text (tools : PyVal) : Except String String :=
  match pyIter tools with
  | Except.error e => Except.error e
  | Except.ok items =>
    match short_tools_go items [] [] with
    | Except.error e => Except.error e
    | Except.ok clean => Except.ok (joinTools clean)

/-- The fixed energy-device keyword list from `build_qa_pairs`. -/
def energy_keys : List String :=
  ["monopolar", "bipolar", "vessel_sealer", "permanent_cautery_hook_spatula", "force_bipolar"]

/-- Python `any(k in (t or "") for k in keys)`: short-circuiting inner any. -/
def anyKeyIn : List String → PyVal → Except String Bool
  | [], _ => Except.ok false
  | k :: ks, tv =>
    match pyIn k tv with
    | Except.error e => Except.error e
    | Except.ok true => Except.ok true
    | Except.ok false => anyKeyIn ks tv

/-- Python `any(any(k in (t or "") for k in keys) for t in items)`:
short-circuiting outer any. -/
def anyEnergy : List PyVal → Except String Bool
  | [] => Except.ok false
  | t :: ts =>
    match anyKeyIn energy_keys (pyOr t (PyVal.str "")) with
    | Except.error e => Except.error e
    | Except.ok true => Except.ok true
    | Except.ok false => anyEnergy ts

/-- The `uses_energy` computation of `build_qa_pairs`: iterate the raw
tool values and test the fixed keywords for substring containment. -/
def uses_energyV (tools : PyVal) : Except String Bool :=
  match pyIter tools with
  | Except.error e => Except.error e
  | Except.ok items => anyEnergy items

/-- One question together with its candidate answers. -/
structure QAPair where
  question : String
  answers : List String
deriving DecidableEq

/-- Source `build_qa_pairs`: three QA pairs per entry, following the
source's evaluation order (groundtruth normalization, `uses_energy`,
then the three pairs); any Python exception propagates. -/
def build_qa_pairs (entry : PyDict) : Except String (List QAPair) :=
  let tools := pyOr (pyGet entry "tools" (PyVal.list [])) (PyVal.list [])
  match normV (pyGet entry "groundtruth_taskname" (PyVal.str "")) with
  | Except.error e => Except.error e
  | Except.ok g =>
    let gt := pyOrS (pyStrip g) "the labeled task"
    match uses_energyV tools with
    | Except.error e => Except.error e
    | Except.ok uses_energy =>
      let pair1 : Except String QAPair :=
        if truthy tools then
          let q1 := "Which instruments are visible in this clip while performing " ++ gt ++ "?"
          let q1' := if 20 < pyWordCount q1
            then "Which instruments are visible in this surgical training video segment?"
            else q1
          match short_tools_text tools with
          | Except.error e => Except.error e
          | Except.ok tshort =>
            Except.ok (QAPair.mk q1'
              ["Includes " ++ tshort ++ ".",
               "Visible: " ++ tshort ++ ".",
               "Present: " ++ tshort ++ ".",
               "Tools include " ++ tshort ++ ".",
               "Seen here: " ++ tshort ++ "."])
        else
          Except.ok (QAPair.mk
            "Are any robotic instruments listed for this segment in the detected objects?"
            ["No, no instruments listed.",
             "No tools are detected.",
             "None listed in objects.",
             "No, instruments not provided.",
             "No detected instruments."])
      match pair1 with
      | Except.error e => Except.error e
      | Except.ok p1 =>
        let a2 := if uses_energy then
            ["Yes, energy device in use.",
             "Yes, monopolar/bipolar used.",
             "Affirmative, energy is used.",
             "Yes, energy instruments present.",
             "Yes, energy applied here."]
          else
            ["No, no energy device used.",
             "Negative, no energy here.",
             "No energy instruments present.",
             "No, energy not applied.",
             "No, none used here."]
        let p2 : QAPair := QAPair.mk
          "Is an energy device such as monopolar scissors or bipolar forceps being used here?"
          a2
        let gt_short := pyOrS gt "the labeled task"
        let p3 : QAPair := QAPair.mk
          "According to the ground truth label, what training objective is being practiced?"
          [gt_short ++ ".",
           gt_short ++ " task.",
           "Training focus: " ++ gt_short ++ ".",
           gt_short ++ " is practiced.",
           "Objective: " ++ gt_short ++ "."]
        Except.ok [p1, p2, p3]

/-- The key built in `main`'s loop: the f-string `case_id_id{index}`
(rendered through Python `str`). -/
def datasetKey (case_id index : PyVal) : String :=
  pyStr case_id ++ "_id" ++ pyStr index

/-- One output entry of the dataset, as built in `main`'s loop. -/
structure OutEntry where
  video_path : String
  detected_objects : PyVal
  qa_pairs : List QAPair

/-- Python `item is None` for the modelled values. -/
def isNone : PyVal → Bool
  | PyVal.none => true
  | _ => false

/-- Model of `out[key] = entry` on an `OrderedDict` modelled as an association
list: an existing key keeps its position and gets the new value, a new
key is appended at the end. -/
def odInsert {α : Type} (m : List (String × α)) (k : String) (v : α) : List (String × α) :=
  if m.any (fun p => p.1 == k) then m.map (fun p => if p.1 = k then (k, v) else p)
  else m ++ [(k, v)]

/-- First-binding lookup in an association list. -/
def odLookup {α : Type} : List (String × α) → String → Option α
  | [], _ => Option.none
  | (k', v) :: rest, k => if k' = k then some v else odLookup rest k

/-- The record loop of `main`: skip records whose `case_id` or `index`
is `None` (identity check), otherwise build the entry (propagating any
exception from `build_qa_pairs`) and insert it under its key. -/
def assemble : List PyDict → List (String × OutEntry) → Except String (List (String × OutEntry))
  | [], out => Except.ok out
  | item :: rest, out =>
    let case_id := pyGet item "case_id" PyVal.none
    let index := pyGet item "index" PyVal.none
    if isNone case_id || isNone index then assemble rest out
    else
      match build_qa_pairs item with
      | Except.error e => Except.error e
      | Except.ok qa =>
        let key := datasetKey case_id index
        let video_path := datasetKey case_id index ++ ".mp4"
        let entry := OutEntry.mk video_path
          (pyOr (pyGet item "tools" (PyVal.list [])) (PyVal.list [])) qa
        assemble rest (odInsert out key entry)

/-- Ghost companion of `assemble`: the stream of `(key, entry)` pairs the
loop of `main` produces for the eligible records, in processing order and
before any `OrderedDict` insertion. -/
def builtEntries : List PyDict → Except String (List (String × OutEntry))
  | [] => Except.ok []
  | item :: rest =>
    let case_id := pyGet item "case_id" PyVal.none
    let index := pyGet item "index" PyVal.none
    if isNone case_id || isNone index then builtEntries rest
    else
      match build_qa_pairs item with
      | Except.error e => Except.error e
      | Except.ok qa =>
        let key := datasetKey case_id index
        let video_path := datasetKey case_id index ++ ".mp4"
        let entry := OutEntry.mk video_path
          (pyOr (pyGet item "tools" (PyVal.list [])) (PyVal.list [])) qa
        match builtEntries rest with
        | Except.error e => Except.error e
        | Except.ok ps => Except.ok ((key, entry) :: ps)

/-- What `json.load` produced for one discovered file: a top-level JSON
array of objects, some other top-level value, or a read/parse failure. -/
inductive FileContent where
  | arr (records : List PyDict)
  | nonArray
  | readError (msg : String)

/-- Insert one path into a list sorted by path name. -/
def sortInsert (p : String × FileContent) :
    List (String × FileContent) → List (String × FileContent)
  | [] => [p]
  | q :: qs => if p.1 ≤ q.1 then p :: q :: qs else q :: sortInsert p qs

/-- Python `sorted(glob.glob(...))`: the discovered files sorted by path. -/
def sortFiles : List (String × FileContent) → List (String × FileContent)
  | [] => []
  | p :: ps => sortInsert p (sortFiles ps)

/-- The load-and-merge loop of `main`: concatenate the records of the
files that parse as arrays, in file order; collect one warning line per
failing file; ignore non-array top-level content. -/
def load_records : List (String × FileContent) → List PyDict × List String
  | [] => ([], [])
  | (path, c) :: rest =>
    let r := load_records rest
    match c with
    | FileContent.arr l => (l ++ r.1, r.2)
    | FileContent.nonArray => r
    | FileContent.readError e =>
      (r.1, ("Warning: failed to read " ++ path ++ ": " ++ e) :: r.2)

/-- The observable outcome of `main`: a fatal `SystemExit` when no file
matches, an uncaught exception from record processing, or the written
dataset together with the warnings printed while loading. -/
inductive RunResult where
  | sysExit (msg : String)
  | raised (msg : String)
  | ok (dataset : List (String × OutEntry)) (warnings : List String)

/-- Source `main` over the discovered files: abort when no candidates,
otherwise load, assemble and write. -/
def main_run (files : List (String × FileContent)) : RunResult :=
  let candidates := sortFiles files
  if candidates.isEmpty then
    RunResult.sysExit "No merged_objdet_metadata_*.json files found. Place them in the repository."
  else
    let lr := load_records candidates
    match assemble lr.1 [] with
    | Except.error e => RunResult.raised e
    | Except.ok out => RunResult.ok out lr.2

/-- Embed a list of plain strings as a Python list value. -/
def strList (ss : List String) : PyVal := PyVal.list (ss.map PyVal.str)

/-- Normalization `norm` followed by `strip`, as applied to each tool name. -/
def normTrim (s : String) : String := pyStrip (norm s)

/-- Keep the first occurrence of every element, dropping later
duplicates. -/
def dedupFirst {α : Type} [DecidableEq α] : List α → List α
  | [] => []
  | a :: l => a :: dedupFirst (l.filter (fun x => x ≠ a))
termination_by l => l.length
decreasing_by
  simp only [List.length_cons]
  exact Nat.lt_succ_of_le (List.length_filter_le _ _)

/-- Modelled from the spec (§4.2): the collected tool names — normalize
each entry, drop empty-after-normalization entries, drop already-seen
entries (case-sensitive, post-normalization), stop after three distinct
entries. -/
def spec_collect (ss : List String) : List String :=
  (dedupFirst ((ss.map normTrim).filter (fun x => x ≠ ""))).take 3

/-- Modelled from the spec (§4.2): the join policy — 0 entries give the
empty string, 1 the entry itself, 2 `a and b`, 3 `a, b, and c`. -/
def spec_join : List String → String
  | [] => ""
  | [a] => a
  | [a, b] => a ++ " and " ++ b
  | a :: b :: c :: _ => a ++ ", " ++ b ++ ", and " ++ c

/-- Modelled from the spec (§4.2): the whole tool-list summarizer. -/
def spec_summarize (ss : List String) : String := spec_join (spec_collect ss)

/-- Modelled from the spec (§4.4): the records one discovered file
contributes — its array elements when it parses as an array, nothing
otherwise. -/
def fileRecs (pc : String × FileContent) : List PyDict :=
  match pc.2 with
  | FileContent.arr l => l
  | _ => []

/-- Modelled from the spec (§4.4): the warning one discovered file
produces — one line identifying the file on a read/parse failure,
nothing otherwise. -/
def fileWarn (pc : String × FileContent) : Option String :=
  match pc.2 with
  | FileContent.readError e => some ("Warning: failed to read " ++ pc.1 ++ ": " ++ e)
  | _ => Option.none

/-- Keep the elements not yet seen, first occurrences only, threading the
seen set. -/
def dedupSeen {α : Type} [DecidableEq α] (seen : List α) : List α → List α
  | [] => []
  | a :: l => if a ∈ seen then dedupSeen seen l else a :: dedupSeen (seen ++ [a]) l

/-- Fold a pair stream into an ordered mapping by repeated insertion. -/
def odApply {α : Type} (m : List (String × α)) (ps : List (String × α)) : List (String × α) :=
  ps.foldl (fun acc p => odInsert acc p.1 p.2) m

theorem normV_str (s : String) : normV (PyVal.str s) = Except.ok (norm s) := by
  by_cases h : s = "" <;> simp [normV, pyOr, truthy, h]

theorem pyIter_list (l : List PyVal) : pyIter (PyVal.list l) = Except.ok l := rfl

/-- Claim C1: whenever `build_qa_pairs` returns, it returns exactly three
QA pairs, in the fixed order (instrument visibility, energy-device usage,
training objective), and each pair carries exactly five answer strings. -/
theorem c1_three_pairs_five_answers (entry : PyDict) (qs : List QAPair)
    (h : build_qa_pairs entry = Except.ok qs) :
    qs.length = 3 ∧
    qs.map (fun p => p.answers.length) = [5, 5, 5] ∧
    (qs.map QAPair.question).drop 1 =
      ["Is an energy device such as monopolar scissors or bipolar forceps being used here?",
       "According to the ground truth label, what training objective is being practiced?"] := by
  simp only [build_qa_pairs] at h
  cases hn : normV (pyGet entry "groundtruth_taskname" (PyVal.str "")) with
  | error e =>
    rw [hn] at h
    exact absurd h (by simp)
  | ok g =>
    simp only [hn] at h
    cases hu : uses_energyV (pyOr (pyGet entry "tools" (PyVal.list [])) (PyVal.list [])) with
    | error e =>
      rw [hu] at h
      exact absurd h (by simp)
    | ok b =>
      simp only [hu] at h
      cases htr : truthy (pyOr (pyGet entry "tools" (PyVal.list [])) (PyVal.list [])) with
      | false =>
        simp only [htr, Bool.false_eq_true, if_false, Except.ok.injEq] at h
        subst h
        cases b <;> simp
      | true =>
        simp only [htr, if_true] at h
        cases hst : short_tools_text (pyOr (pyGet entry "tools" (PyVal.list [])) (PyVal.list [])) with
        | error e =>
          rw [hst] at h
          exact absurd h (by simp)
        | ok tshort =>
          simp only [hst, Except.ok.injEq] at h
          subst h
          cases b <;> simp

/-- Claim C1, witness: the empty record is eligible and gets the three
fixed pairs. -/
theorem c1_witness :
    ([QAPair.mk "Are any robotic instruments listed for this segment in the detected objects?"
        ["No, no instruments listed.", "No tools are detected.", "None listed in objects.",
         "No, instruments not provided.", "No detected instruments."],
      QAPair.mk "Is an energy device such as monopolar scissors or bipolar forceps being used here?"
        ["No, no energy device used.", "Negative, no energy here.", "No energy instruments present.",
         "No, energy not applied.", "No, none used here."],
      QAPair.mk "According to the ground truth label, what training objective is being practiced?"
        ["the labeled task.", "the labeled task task.", "Training focus: the labeled task.",
         "the labeled task is practiced.", "Objective: the labeled task."]] : List QAPair).length = 3 ∧
    ([QAPair.mk "Are any robotic instruments listed for this segment in the detected objects?"
        ["No, no instruments listed.", "No tools are detected.", "None listed in objects.",
         "No, instruments not provided.", "No detected instruments."],
      QAPair.mk "Is an energy device such as monopolar scissors or bipolar forceps being used here?"
        ["No, no energy device used.", "Negative, no energy here.", "No energy instruments present.",
         "No, energy not applied.", "No, none used here."],
      QAPair.mk "According to the ground truth label, what training objective is being practiced?"
        ["the labeled task.", "the labeled task task.", "Training focus: the labeled task.",
         "the labeled task is practiced.", "Objective: the labeled task."]] : List QAPair).map
      (fun p => p.answers.length) = [5, 5, 5] ∧
    (([QAPair.mk "Are any robotic instruments listed for this segment in the detected objects?"
        ["No, no instruments listed.", "No tools are detected.", "None listed in objects.",
         "No, instruments not provided.", "No detected instruments."],
      QAPair.mk "Is an energy device such as monopolar scissors or bipolar forceps being used here?"
        ["No, no energy device used.", "Negative, no energy here.", "No energy instruments present.",
         "No, energy not applied.", "No, none used here."],
      QAPair.mk "According to the ground truth label, what training objective is being practiced?"
        ["the labeled task.", "the labeled task task.", "Training focus: the labeled task.",
         "the labeled task is practiced.", "Objective: the labeled task."]] : List QAPair).map
      QAPair.question).drop 1 =
      ["Is an energy device such as monopolar scissors or bipolar forceps being used here?",
       "According to the ground truth label, what training objective is being practiced?"] :=
  c1_three_pairs_five_answers [] _ rfl

/-- Claim C10: `build_qa_pairs` depends only on the record's `tools` and
`groundtruth_taskname` fields — two records agreeing on both (absent
fields reading as the defaults) get identical QA pairs. -/
theorem c10_noninterference (e1 e2 : PyDict)
    (ht : pyGet e1 "tools" (PyVal.list []) = pyGet e2 "tools" (PyVal.list []))
    (hg : pyGet e1 "groundtruth_taskname" (PyVal.str "") =
      pyGet e2 "groundtruth_taskname" (PyVal.str "")) :
    build_qa_pairs e1 = build_qa_pairs e2 := by
  unfold build_qa_pairs
  rw [ht, hg]

/-- Claim C10, witness: two records that differ in unrelated fields (and
where only one mentions `case_id`) build the same pairs. -/
theorem c10_witness :
    build_qa_pairs [("case_id", PyVal.str "x")] = build_qa_pairs [("foo", PyVal.int 7)] :=
  c10_noninterference [("case_id", PyVal.str "x")] [("foo", PyVal.int 7)] rfl rfl

theorem pyOr_str (s : String) : pyOr (PyVal.str s) (PyVal.str "") = PyVal.str s := by
  by_cases h : s = "" <;> simp [pyOr, truthy, h]

theorem joinTools_eq_spec_join (l : List String) : joinTools l = spec_join l := by
  rcases l with _ | ⟨a, _ | ⟨b, _ | ⟨c, rest⟩⟩⟩ <;> rfl

theorem dedupFirst_cons {α : Type} [DecidableEq α] (a : α) (l : List α) :
    dedupFirst (a :: l) = a :: dedupFirst (l.filter (fun x => x ≠ a)) := by
  rw [dedupFirst]

theorem dedupFirst_sublist {α : Type} [DecidableEq α] (l : List α) :
    (dedupFirst l).Sublist l := by
  induction l using dedupFirst.induct with
  | case1 => simp [dedupFirst]
  | case2 a l ih =>
    rw [dedupFirst_cons]
    exact (ih.trans (List.filter_sublist l)).cons₂ a

theorem dedupFirst_nodup {α : Type} [DecidableEq α] (l : List α) :
    (dedupFirst l).Nodup := by
  induction l using dedupFirst.induct with
  | case1 => simp [dedupFirst]
  | case2 a l ih =>
    rw [dedupFirst_cons]
    refine List.nodup_cons.mpr ⟨fun hmem => ?_, ih⟩
    have := (dedupFirst_sublist (l.filter (fun x => x ≠ a))).mem hmem
    simp at this

theorem short_tools_go_spec (ts : List String) :
    ∀ clean : List String, clean.length < 3 →
    short_tools_go (ts.map PyVal.str) clean clean =
      Except.ok (clean ++
        (dedupFirst ((((ts.map normTrim).filter (fun x => x ≠ "")).filter
          (fun x => x ∉ clean)))).take (3 - clean.length)) := by
  induction ts with
  | nil => intro clean _; simp [short_tools_go, dedupFirst]
  | cons s ts ih =>
    intro clean hlen
    have hnv : normV (PyVal.str s) = Except.ok (norm s) := normV_str s
    simp only [List.map_cons, short_tools_go, hnv]
    by_cases hskip : normTrim s = "" ∨ normTrim s ∈ clean
    · have hcond : ¬(pyStrip (norm s) ≠ "" ∧ pyStrip (norm s) ∉ clean) := by
        rcases hskip with h | h
        · intro hc
          exact hc.1 (by simpa [normTrim] using h)
        · intro hc
          exact hc.2 (by simpa [normTrim] using h)
      simp only [if_neg hcond]
      have hfilt :
          ((normTrim s :: ts.map normTrim).filter (fun x => x ≠ "")).filter
            (fun x => x ∉ clean) =
          ((ts.map normTrim).filter (fun x => x ≠ "")).filter (fun x => x ∉ clean) := by
        rcases hskip with h | h
        · simp [List.filter_cons, h]
        · by_cases h0 : normTrim s = ""
          · simp [List.filter_cons, h0]
          · simp [List.filter_cons, h0, h]
      rw [if_neg (by omega : ¬ 3 ≤ clean.length)]
      rw [ih clean hlen, hfilt]
    · push_neg at hskip
      obtain ⟨hne, hnotin⟩ := hskip
      have hcond : pyStrip (norm s) ≠ "" ∧ pyStrip (norm s) ∉ clean := by
        simpa [normTrim] using ⟨hne, hnotin⟩
      simp only [if_pos hcond]
      have hfilt :
          ((normTrim s :: ts.map normTrim).filter (fun x => x ≠ "")).filter
            (fun x => x ∉ clean) =
          normTrim s ::
            ((ts.map normTrim).filter (fun x => x ≠ "")).filter (fun x => x ∉ clean) := by
        simp [List.filter_cons, hne, hnotin]
      have hstep : (pyStrip (norm s)) = normTrim s := rfl
      by_cases hfull : clean.length = 2
      · have h3 : 3 ≤ (clean ++ [pyStrip (norm s)]).length := by
          simp [hfull]
        rw [if_pos h3, hfilt, dedupFirst_cons]
        have : 3 - clean.length = 1 := by omega
        simp [this, hstep]
      · have hlt : (clean ++ [pyStrip (norm s)]).length < 3 := by
          simp only [List.length_append, List.length_cons, List.length_nil]
          omega
        rw [if_neg (by omega : ¬ 3 ≤ (clean ++ [pyStrip (norm s)]).length)]
        have hpredeq :
            (((ts.map normTrim).filter (fun x => x ≠ "")).filter (fun x => x ∉ clean)).filter
              (fun x => x ≠ normTrim s) =
            ((ts.map normTrim).filter (fun x => x ≠ "")).filter
              (fun x => x ∉ clean ++ [pyStrip (norm s)]) := by
          rw [List.filter_filter]
          apply List.filter_congr
          intro x _
          simp [hstep, List.mem_append, not_or, and_comm]
        rw [ih (clean ++ [pyStrip (norm s)]) hlt, hfilt, dedupFirst_cons, hpredeq]
        have hsub : 3 - clean.length = (3 - (clean ++ [pyStrip (norm s)]).length) + 1 := by
          simp only [List.length_append, List.length_cons, List.length_nil]
          omega
        rw [hsub]
        simp [List.take_succ_cons, hstep, List.append_assoc]

theorem short_tools_text_str (ss : List String) :
    short_tools_text (strList ss) = Except.ok (spec_summarize ss) := by
  have hgo := short_tools_go_spec ss [] (by simp)
  have hfilt :
      (((ss.map normTrim).filter (fun x => x ≠ "")).filter
        (fun x => x ∉ ([] : List String))) =
      ((ss.map normTrim).filter (fun x => x ≠ "")) := by
    simp
  rw [hfilt] at hgo
  simp only [short_tools_text, strList, pyIter_list, hgo, List.nil_append,
    Nat.sub_zero]
  rw [joinTools_eq_spec_join]
  rfl

/-- Claim C2: on every list of tool-name strings, `short_tools_text`
computes exactly the spec's summarizer — the entries are walked in
order, normalized, empty or already-seen entries skipped, collection
stops at three — and the collected names are joined by the spec's join
policy; at most three distinct names appear and none repeats. -/
theorem c2_short_tools_text_spec (ss : List String) :
    short_tools_text (strList ss) = Except.ok (spec_summarize ss) ∧
    (spec_collect ss).length ≤ 3 ∧
    (spec_collect ss).Nodup := by
  refine ⟨short_tools_text_str ss, ?_, ?_⟩
  · exact List.length_take_le 3 _
  · exact (List.take_sublist 3 _).nodup (dedupFirst_nodup _)

theorem anyKeyIn_str (ks : List String) (s : String) :
    anyKeyIn ks (PyVal.str s) = Except.ok (ks.any (fun k => containsSub k s)) := by
  induction ks with
  | nil => rfl
  | cons k ks ih =>
    simp only [anyKeyIn, pyIn, List.any_cons]
    cases h : containsSub k s <;> simp [ih]

theorem anyEnergy_str (ss : List String) :
    anyEnergy (ss.map PyVal.str) =
      Except.ok (ss.any (fun s => energy_keys.any (fun k => containsSub k s))) := by
  induction ss with
  | nil => rfl
  | cons s ss ih =>
    simp only [List.map_cons, anyEnergy, pyOr_str, anyKeyIn_str, List.any_cons]
    cases h : energy_keys.any (fun k => containsSub k s) <;> simp [ih, h]

theorem uses_energyV_str (ss : List String) :
    uses_energyV (strList ss) =
      Except.ok (ss.any (fun s => energy_keys.any (fun k => containsSub k s))) := by
  simp only [uses_energyV, strList, pyIter_list]
  exact anyEnergy_str ss

theorem isPref_iff (k : List Char) :
    ∀ l : List Char, isPref k l = true ↔ ∃ post, l = k ++ post := by
  induction k with
  | nil => intro l; simp [isPref]
  | cons a as ih =>
    intro l
    cases l with
    | nil =>
      simp only [isPref, List.cons_append]
      constructor
      · intro h; cases h
      · rintro ⟨post, h⟩; cases h
    | cons b bs =>
      simp only [isPref, Bool.and_eq_true, decide_eq_true_eq, ih, List.cons_append,
        List.cons.injEq]
      constructor
      · rintro ⟨rfl, post, rfl⟩; exact ⟨post, rfl, rfl⟩
      · rintro ⟨post, rfl, rfl⟩; exact ⟨rfl, post, rfl⟩

theorem hasSub_iff (k l : List Char) :
    hasSub k l = true ↔ ∃ pre post, l = pre ++ k ++ post := by
  induction l with
  | nil =>
    simp only [hasSub, isPref_iff]
    constructor
    · rintro ⟨post, h⟩
      exact ⟨[], post, by simpa using h⟩
    · rintro ⟨pre, post, h⟩
      have := congrArg List.length h
      simp at this
      refine ⟨post, ?_⟩
      have hpre : pre = [] := by
        cases pre with
        | nil => rfl
        | cons x xs => simp at this; omega
      subst hpre
      simpa using h
  | cons c cs ih =>
    simp only [hasSub, Bool.or_eq_true, isPref_iff, ih]
    constructor
    · rintro (⟨post, h⟩ | ⟨pre, post, h⟩)
      · exact ⟨[], post, by simpa using h⟩
      · exact ⟨c :: pre, post, by simp [h]⟩
    · rintro ⟨pre, post, h⟩
      cases pre with
      | nil =>
        left
        exact ⟨post, by simpa using h⟩
      | cons x xs =>
        right
        simp only [List.cons_append, List.cons.injEq] at h
        exact ⟨xs, post, h.2⟩

theorem containsSub_iff (k s : String) :
    containsSub k s = true ↔ ∃ pre post, s.data = pre ++ k.data ++ post :=
  hasSub_iff k.data s.data

theorem pyOr_strList (ss : List String) :
    pyOr (strList ss) (PyVal.list []) = strList ss := by
  cases ss <;> simp [strList, pyOr, truthy]

/-- Claim C3: for a record whose tools field is a list of strings,
`uses_energy` is true exactly when some raw (pre-normalization) tool
name contains one of the five fixed keywords as a case-sensitive
substring, and pair 2 carries the five fixed affirmative answers when it
is true and the five fixed negative answers otherwise. -/
theorem c3_uses_energy (entry : PyDict) (ss : List String) (qs : List QAPair)
    (htools : pyGet entry "tools" (PyVal.list []) = strList ss)
    (h : build_qa_pairs entry = Except.ok qs) :
    qs.get? 1 = some (QAPair.mk
      "Is an energy device such as monopolar scissors or bipolar forceps being used here?"
      (if ss.any (fun s => energy_keys.any (fun k => containsSub k s)) = true then
        ["Yes, energy device in use.", "Yes, monopolar/bipolar used.",
         "Affirmative, energy is used.", "Yes, energy instruments present.",
         "Yes, energy applied here."]
      else
        ["No, no energy device used.", "Negative, no energy here.",
         "No energy instruments present.", "No, energy not applied.",
         "No, none used here."])) ∧
    (ss.any (fun s => energy_keys.any (fun k => containsSub k s)) = true ↔
      ∃ s ∈ ss, ∃ k ∈ energy_keys, ∃ pre post, s.data = pre ++ k.data ++ post) := by
  have hor : pyOr (pyGet entry "tools" (PyVal.list [])) (PyVal.list []) = strList ss := by
    rw [htools]
    exact pyOr_strList ss
  constructor
  · simp only [build_qa_pairs, hor] at h
    cases hn : normV (pyGet entry "groundtruth_taskname" (PyVal.str "")) with
    | error e =>
      rw [hn] at h
      exact absurd h (by simp)
    | ok g =>
      simp only [hn, uses_energyV_str] at h
      cases htr : truthy (strList ss) with
      | false =>
        simp only [htr, Bool.false_eq_true, if_false, Except.ok.injEq] at h
        subst h
        rfl
      | true =>
        simp only [htr, if_true] at h
        cases hst : short_tools_text (strList ss) with
        | error e =>
          rw [hst] at h
          exact absurd h (by simp)
        | ok tshort =>
          simp only [hst, Except.ok.injEq] at h
          subst h
          rfl
  · simp only [List.any_eq_true, containsSub_iff]

/-- Claim C3, witness: a tool list containing `bipolar_forceps` selects
the affirmative answer set; one containing only `needle_driver` selects
the negative answer set. -/
theorem c3_witness :
    ([QAPair.mk "Which instruments are visible in this clip while performing the labeled task?"
        ["Includes bipolar forceps.", "Visible: bipolar forceps.", "Present: bipolar forceps.",
         "Tools include bipolar forceps.", "Seen here: bipolar forceps."],
      QAPair.mk "Is an energy device such as monopolar scissors or bipolar forceps being used here?"
        ["Yes, energy device in use.", "Yes, monopolar/bipolar used.",
         "Affirmative, energy is used.", "Yes, energy instruments present.",
         "Yes, energy applied here."],
      QAPair.mk "According to the ground truth label, what training objective is being practiced?"
        ["the labeled task.", "the labeled task task.", "Training focus: the labeled task.",
         "the labeled task is practiced.", "Objective: the labeled task."]] : List QAPair).get? 1 =
      some (QAPair.mk
        "Is an energy device such as monopolar scissors or bipolar forceps being used here?"
        ["Yes, energy device in use.", "Yes, monopolar/bipolar used.",
         "Affirmative, energy is used.", "Yes, energy instruments present.",
         "Yes, energy applied here."]) ∧
    ([QAPair.mk "Which instruments are visible in this clip while performing the labeled task?"
        ["Includes needle driver.", "Visible: needle driver.", "Present: needle driver.",
         "Tools include needle driver.", "Seen here: needle driver."],
      QAPair.mk "Is an energy device such as monopolar scissors or bipolar forceps being used here?"
        ["No, no energy device used.", "Negative, no energy here.",
         "No energy instruments present.", "No, energy not applied.",
         "No, none used here."],
      QAPair.mk "According to the ground truth label, what training objective is being practiced?"
        ["the labeled task.", "the labeled task task.", "Training focus: the labeled task.",
         "the labeled task is practiced.", "Objective: the labeled task."]] : List QAPair).get? 1 =
      some (QAPair.mk
        "Is an energy device such as monopolar scissors or bipolar forceps being used here?"
        ["No, no energy device used.", "Negative, no energy here.",
         "No energy instruments present.", "No, energy not applied.",
         "No, none used here."]) :=
  ⟨(c3_uses_energy [("tools", strList ["bipolar_forceps"])] ["bipolar_forceps"] _ rfl rfl).1,
   (c3_uses_energy [("tools", strList ["needle_driver"])] ["needle_driver"] _ rfl rfl).1⟩

/-- Claim C4: with a truthy tool list, pair 1's question interpolates the
normalized ground truth, replaced verbatim by the fixed fallback when its
whitespace-delimited word count exceeds 20; with an empty (falsy) tool
list, pair 1 is the fixed no-instruments question with its five fixed
negative answers and no interpolation. -/
theorem c4_pair1_question (entry : PyDict) (g : String) (qs : List QAPair)
    (hn : normV (pyGet entry "groundtruth_taskname" (PyVal.str "")) = Except.ok g)
    (h : build_qa_pairs entry = Except.ok qs) :
    (truthy (pyOr (pyGet entry "tools" (PyVal.list [])) (PyVal.list [])) = true →
      (qs.get? 0).map QAPair.question = some
        (if 20 < pyWordCount ("Which instruments are visible in this clip while performing " ++
            pyOrS (pyStrip g) "the labeled task" ++ "?")
         then "Which instruments are visible in this surgical training video segment?"
         else "Which instruments are visible in this clip while performing " ++
            pyOrS (pyStrip g) "the labeled task" ++ "?")) ∧
    (truthy (pyOr (pyGet entry "tools" (PyVal.list [])) (PyVal.list [])) = false →
      qs.get? 0 = some (QAPair.mk
        "Are any robotic instruments listed for this segment in the detected objects?"
        ["No, no instruments listed.", "No tools are detected.", "None listed in objects.",
         "No, instruments not provided.", "No detected instruments."])) := by
  simp only [build_qa_pairs, hn] at h
  cases hu : uses_energyV (pyOr (pyGet entry "tools" (PyVal.list [])) (PyVal.list [])) with
  | error e =>
    rw [hu] at h
    exact absurd h (by simp)
  | ok b =>
    simp only [hu] at h
    cases htr : truthy (pyOr (pyGet entry "tools" (PyVal.list [])) (PyVal.list [])) with
    | false =>
      simp only [htr, Bool.false_eq_true, if_false, Except.ok.injEq] at h
      subst h
      exact ⟨fun hc => Bool.noConfusion hc, fun _ => rfl⟩
    | true =>
      simp only [htr, if_true] at h
      cases hst : short_tools_text (pyOr (pyGet entry "tools" (PyVal.list [])) (PyVal.list [])) with
      | error e =>
        rw [hst] at h
        exact absurd h (by simp)
      | ok tshort =>
        simp only [hst, Except.ok.injEq] at h
        subst h
        exact ⟨fun _ => rfl, fun hc => Bool.noConfusion hc⟩

/-- Claim C4, witness: a 12-word ground-truth task name pushes the
interpolated question to 21 words and triggers the fixed fallback
verbatim; a record with no tools gets the fixed no-instruments pair. -/
theorem c4_witness :
    ((([QAPair.mk "Which instruments are visible in this surgical training video segment?"
          ["Includes needle driver.", "Visible: needle driver.", "Present: needle driver.",
           "Tools include needle driver.", "Seen here: needle driver."],
        QAPair.mk "Is an energy device such as monopolar scissors or bipolar forceps being used here?"
          ["No, no energy device used.", "Negative, no energy here.",
           "No energy instruments present.", "No, energy not applied.", "No, none used here."],
        QAPair.mk "According to the ground truth label, what training objective is being practiced?"
          ["a b c d e f g h i j k l.", "a b c d e f g h i j k l task.",
           "Training focus: a b c d e f g h i j k l.", "a b c d e f g h i j k l is practiced.",
           "Objective: a b c d e f g h i j k l."]] : List QAPair).get? 0).map QAPair.question =
        some "Which instruments are visible in this surgical training video segment?") ∧
    (([QAPair.mk "Are any robotic instruments listed for this segment in the detected objects?"
          ["No, no instruments listed.", "No tools are detected.", "None listed in objects.",
           "No, instruments not provided.", "No detected instruments."],
        QAPair.mk "Is an energy device such as monopolar scissors or bipolar forceps being used here?"
          ["No, no energy device used.", "Negative, no energy here.",
           "No energy instruments present.", "No, energy not applied.", "No, none used here."],
        QAPair.mk "According to the ground truth label, what training objective is being practiced?"
          ["suturing.", "suturing task.", "Training focus: suturing.", "suturing is practiced.",
           "Objective: suturing."]] : List QAPair).get? 0 =
        some (QAPair.mk
          "Are any robotic instruments listed for this segment in the detected objects?"
          ["No, no instruments listed.", "No tools are detected.", "None listed in objects.",
           "No, instruments not provided.", "No detected instruments."])) :=
  ⟨(c4_pair1_question
      [("tools", strList ["needle_driver"]),
       ("groundtruth_taskname", PyVal.str "a b c d e f g h i j k l")]
      "a b c d e f g h i j k l" _ rfl rfl).1 rfl,
   (c4_pair1_question [("groundtruth_taskname", PyVal.str "suturing")] "suturing" _ rfl rfl).2 rfl⟩

theorem hasSub_of_eq_append (i pre post : List Char)
    (h : i = pre ++ (['_', 'i', 'd'] ++ post)) : hasSub ['_', 'i', 'd'] i = true := by
  refine (hasSub_iff _ _).mpr ⟨pre, post, ?_⟩
  rw [h, List.append_assoc]

theorem key_inj_aux :
    ∀ c1 c2 i1 i2 : List Char,
    hasSub ['_', 'i', 'd'] i1 = false → hasSub ['_', 'i', 'd'] i2 = false →
    c1 ++ (['_', 'i', 'd'] ++ i1) = c2 ++ (['_', 'i', 'd'] ++ i2) →
    c1 = c2 ∧ i1 = i2 := by
  intro c1
  induction c1 with
  | nil =>
    intro c2 i1 i2 h1 h2 heq
    cases c2 with
    | nil =>
      simp only [List.nil_append, List.cons_append, List.cons.injEq, true_and] at heq
      exact ⟨rfl, heq⟩
    | cons d c2' =>
      simp only [List.nil_append, List.cons_append, List.cons.injEq] at heq
      obtain ⟨hd, heq⟩ := heq
      cases c2' with
      | nil =>
        simp at heq
      | cons e c2'' =>
        simp only [List.cons_append, List.cons.injEq] at heq
        obtain ⟨he, heq⟩ := heq
        cases c2'' with
        | nil =>
          simp at heq
        | cons f c2''' =>
          simp only [List.cons_append, List.cons.injEq] at heq
          obtain ⟨hf, heq⟩ := heq
          rw [hasSub_of_eq_append i1 c2''' i2 heq] at h1
          cases h1
  | cons a c1' ih =>
    intro c2 i1 i2 h1 h2 heq
    cases c2 with
    | nil =>
      simp only [List.nil_append, List.cons_append, List.cons.injEq] at heq
      obtain ⟨hd, heq⟩ := heq
      cases c1' with
      | nil =>
        simp at heq
      | cons e c1'' =>
        simp only [List.cons_append, List.cons.injEq] at heq
        obtain ⟨he, heq⟩ := heq
        cases c1'' with
        | nil =>
          simp at heq
        | cons f c1''' =>
          simp only [List.cons_append, List.cons.injEq] at heq
          obtain ⟨hf, heq⟩ := heq
          rw [hasSub_of_eq_append i2 c1''' i1 heq.symm] at h2
          cases h2
    | cons b c2' =>
      simp only [List.cons_append, List.cons.injEq] at heq
      obtain ⟨hab, heq⟩ := heq
      have := ih c2' i1 i2 h1 h2 heq
      exact ⟨by rw [hab, this.1], this.2⟩

/-- Claim C5, counterexample: the records `(case_id "a", index "1_id2")`
and `(case_id "a_id1", index "2")` are distinct identity pairs but get
the same derived key, so the key derivation is not collision-free. -/
theorem c5_counterexample :
    datasetKey (PyVal.str "a") (PyVal.str "1_id2") =
      datasetKey (PyVal.str "a_id1") (PyVal.str "2") ∧
    ¬(PyVal.str "a" = PyVal.str "a_id1" ∧ PyVal.str "1_id2" = PyVal.str "2") := by
  refine ⟨rfl, fun hc => ?_⟩
  have := hc.1
  simp only [PyVal.str.injEq] at this
  exact absurd this (by decide)

/-- Claim C5 (amended): the key is still formed deterministically from
`case_id` and `index`, and it is collision-free for distinct pairs of
string-valued identities provided neither index contains the substring
`_id` (as integer-style indices do not). -/
theorem c5_key_injective_amended (c1 i1 c2 i2 : String)
    (h1 : containsSub "_id" i1 = false) (h2 : containsSub "_id" i2 = false)
    (hne : ¬(c1 = c2 ∧ i1 = i2)) :
    datasetKey (PyVal.str c1) (PyVal.str i1) ≠ datasetKey (PyVal.str c2) (PyVal.str i2) := by
  intro hk
  have hdata := congrArg String.data hk
  have hshape : ∀ c i : String,
      (datasetKey (PyVal.str c) (PyVal.str i)).data = c.data ++ (['_', 'i', 'd'] ++ i.data) := by
    intro c i
    show (c ++ "_id" ++ i).data = _
    rw [String.data_append, String.data_append, List.append_assoc]
  rw [hshape, hshape] at hdata
  have := key_inj_aux c1.data c2.data i1.data i2.data h1 h2 hdata
  exact hne ⟨String.ext this.1, String.ext this.2⟩

/-- Claim C5, witness: two ordinary identity pairs with distinct indices
get distinct keys. -/
theorem c5_witness :
    datasetKey (PyVal.str "case01") (PyVal.str "2") ≠
      datasetKey (PyVal.str "case01") (PyVal.str "3") :=
  c5_key_injective_amended "case01" "2" "case01" "3" rfl rfl
    (fun hc => absurd hc.2 (by decide))

/-- Claim C6: the record loop skips a record exactly when its `case_id`
or `index` reads as `None` (absent or literally `None` — an identity
check, not truthiness): such a record contributes nothing, and any other
record, even with falsy identity values such as index `0` or an empty
case id, is built and inserted under its key. -/
theorem c6_skip_iff (item : PyDict) (rest : List PyDict) (out : List (String × OutEntry)) :
    ((isNone (pyGet item "case_id" PyVal.none) = true ∨
      isNone (pyGet item "index" PyVal.none) = true) →
      assemble (item :: rest) out = assemble rest out) ∧
    (isNone (pyGet item "case_id" PyVal.none) = false →
      isNone (pyGet item "index" PyVal.none) = false →
      ∀ qa, build_qa_pairs item = Except.ok qa →
        assemble (item :: rest) out = assemble rest
          (odInsert out
            (datasetKey (pyGet item "case_id" PyVal.none) (pyGet item "index" PyVal.none))
            (OutEntry.mk
              (datasetKey (pyGet item "case_id" PyVal.none) (pyGet item "index" PyVal.none)
                ++ ".mp4")
              (pyOr (pyGet item "tools" (PyVal.list [])) (PyVal.list [])) qa))) := by
  constructor
  · intro h
    have hcond : (isNone (pyGet item "case_id" PyVal.none) ||
        isNone (pyGet item "index" PyVal.none)) = true := by
      rcases h with h | h <;> simp [h]
    simp only [assemble, hcond, if_true]
  · intro hc hi qa hqa
    have hcond : (isNone (pyGet item "case_id" PyVal.none) ||
        isNone (pyGet item "index" PyVal.none)) = false := by
      simp [hc, hi]
    simp only [assemble, hcond, Bool.false_eq_true, if_false, hqa]

/-- Claim C6, witness: the record with only a tools list contributes no
entry; a record with empty-string `case_id` and index `0` (falsy but
present) is still written, under key `_id0`. -/
theorem c6_witness :
    assemble [[("tools", strList ["clip_applier"])]] [] = Except.ok [] ∧
    assemble [[("case_id", PyVal.str ""), ("index", PyVal.int 0)]] [] =
      Except.ok [("_id0", OutEntry.mk "_id0.mp4" (PyVal.list [])
        [QAPair.mk "Are any robotic instruments listed for this segment in the detected objects?"
          ["No, no instruments listed.", "No tools are detected.", "None listed in objects.",
           "No, instruments not provided.", "No detected instruments."],
         QAPair.mk "Is an energy device such as monopolar scissors or bipolar forceps being used here?"
          ["No, no energy device used.", "Negative, no energy here.",
           "No energy instruments present.", "No, energy not applied.", "No, none used here."],
         QAPair.mk "According to the ground truth label, what training objective is being practiced?"
          ["the labeled task.", "the labeled task task.", "Training focus: the labeled task.",
           "the labeled task is practiced.", "Objective: the labeled task."]])] :=
  ⟨((c6_skip_iff [("tools", strList ["clip_applier"])] [] []).1 (Or.inl rfl)).trans rfl,
   ((c6_skip_iff [("case_id", PyVal.str ""), ("index", PyVal.int 0)] [] []).2 rfl rfl _ rfl).trans
     rfl⟩

/-- Claim C9, counterexample: a record whose `tools` field is the truthy
non-list value `1` is not defaulted to the empty list — iterating it in
the `uses_energy` computation raises `TypeError`, so `build_qa_pairs` is
not total. -/
theorem c9_counterexample :
    build_qa_pairs [("tools", PyVal.int 1)] = Except.error "TypeError" := rfl

/-- Claim C9 (amended): an absent or falsy `tools` field degrades to the
empty list and an absent or falsy `groundtruth_taskname` degrades to the
empty string (then to the fallback `the labeled task`); `build_qa_pairs`
returns its three QA pairs on every record whose `tools` field reads as a
list of strings after the `or []` default and whose
`groundtruth_taskname` survives `norm` — a truthy wrong-shape field
raises instead. -/
theorem c9_total_amended (entry : PyDict) (ss : List String) (g : String)
    (htools : pyOr (pyGet entry "tools" (PyVal.list [])) (PyVal.list []) = strList ss)
    (hg : normV (pyGet entry "groundtruth_taskname" (PyVal.str "")) = Except.ok g) :
    (build_qa_pairs entry).toOption.map List.length = some 3 := by
  simp only [build_qa_pairs, htools, hg, uses_energyV_str, short_tools_text_str]
  cases htr : truthy (strList ss) with
  | false =>
    simp only [htr, Bool.false_eq_true, if_false, Except.toOption, Option.map]
    rfl
  | true =>
    simp only [htr, if_true, Except.toOption, Option.map]
    rfl

/-- Claim C9, witness: `tools` present but `None` and
`groundtruth_taskname` absent — both degrade and the three pairs are
produced. -/
theorem c9_witness :
    (build_qa_pairs [("tools", PyVal.none)]).toOption.map List.length = some 3 :=
  c9_total_amended [("tools", PyVal.none)] [] "" rfl rfl

theorem map_fst_update {α : Type} (m : List (String × α)) (k : String) (v : α) :
    (m.map (fun p => if p.1 = k then (k, v) else p)).map Prod.fst = m.map Prod.fst := by
  induction m with
  | nil => rfl
  | cons q m ih => by_cases hq : q.1 = k <;> simp [hq, ih]

theorem odInsert_mem_map_fst {α : Type} (m : List (String × α)) (k : String) (v : α)
    (h : k ∈ m.map Prod.fst) : (odInsert m k v).map Prod.fst = m.map Prod.fst := by
  have hc : (m.any (fun p => p.1 == k)) = true := by
    simp only [List.any_eq_true, beq_iff_eq]
    obtain ⟨p, hp, hpk⟩ := List.mem_map.mp h
    exact ⟨p, hp, hpk⟩
  simp only [odInsert, hc, if_true]
  exact map_fst_update m k v

theorem odInsert_not_mem_map_fst {α : Type} (m : List (String × α)) (k : String) (v : α)
    (h : k ∉ m.map Prod.fst) : (odInsert m k v).map Prod.fst = m.map Prod.fst ++ [k] := by
  have hc : (m.any (fun p => p.1 == k)) = false := by
    cases hca : (m.any (fun p => p.1 == k)) with
    | false => rfl
    | true =>
      simp only [List.any_eq_true, beq_iff_eq] at hca
      obtain ⟨p, hp, hpk⟩ := hca
      exact absurd (List.mem_map.mpr ⟨p, hp, hpk⟩) h
  simp [odInsert, hc]

theorem odLookup_update_self {α : Type} (k : String) (v : α) :
    ∀ m : List (String × α), k ∈ m.map Prod.fst →
    odLookup (m.map (fun p => if p.1 = k then (k, v) else p)) k = some v := by
  intro m
  induction m with
  | nil => intro h; cases h
  | cons q m ih =>
    intro h
    by_cases hq : q.1 = k
    · rw [List.map_cons, if_pos hq]
      simp [odLookup]
    · have hk : k ∈ m.map Prod.fst := by
        rcases List.mem_cons.mp h with h' | h'
        · exact absurd h'.symm hq
        · exact h'
      rw [List.map_cons, if_neg hq]
      simp only [odLookup, if_neg hq]
      exact ih hk

theorem odLookup_append_right {α : Type} (k : String) :
    ∀ (m l : List (String × α)), k ∉ m.map Prod.fst →
    odLookup (m ++ l) k = odLookup l k := by
  intro m l
  induction m with
  | nil => intro _; rfl
  | cons q m ih =>
    intro h
    have hq : q.1 ≠ k := fun hc => h (List.mem_cons.mpr (Or.inl hc.symm))
    simp only [List.cons_append, odLookup, hq, if_false]
    exact ih (fun hc => h (List.mem_cons.mpr (Or.inr hc)))

theorem odLookup_insert_self {α : Type} (m : List (String × α)) (k : String) (v : α) :
    odLookup (odInsert m k v) k = some v := by
  by_cases h : k ∈ m.map Prod.fst
  · have hc : (m.any (fun p => p.1 == k)) = true := by
      simp only [List.any_eq_true, beq_iff_eq]
      obtain ⟨p, hp, hpk⟩ := List.mem_map.mp h
      exact ⟨p, hp, hpk⟩
    simp only [odInsert, hc, if_true]
    exact odLookup_update_self k v m h
  · have hc : (m.any (fun p => p.1 == k)) = false := by
      cases hca : (m.any (fun p => p.1 == k)) with
      | false => rfl
      | true =>
        simp only [List.any_eq_true, beq_iff_eq] at hca
        obtain ⟨p, hp, hpk⟩ := hca
        exact absurd (List.mem_map.mpr ⟨p, hp, hpk⟩) h
    simp only [odInsert, hc, Bool.false_eq_true, if_false]
    rw [odLookup_append_right k m [(k, v)] h]
    simp [odLookup]

theorem odLookup_update_ne {α : Type} (k k' : String) (v : α) (hne : k ≠ k') :
    ∀ m : List (String × α),
    odLookup (m.map (fun p => if p.1 = k then (k, v) else p)) k' = odLookup m k' := by
  intro m
  induction m with
  | nil => rfl
  | cons q m ih =>
    by_cases hq : q.1 = k
    · have hq' : q.1 ≠ k' := by rw [hq]; exact hne
      rw [List.map_cons, if_pos hq]
      simp only [odLookup, if_neg hne, if_neg hq', ih]
    · rw [List.map_cons, if_neg hq]
      simp only [odLookup, ih]

theorem odLookup_append_single_ne {α : Type} (k k' : String) (v : α) (hne : k ≠ k') :
    ∀ m : List (String × α), odLookup (m ++ [(k, v)]) k' = odLookup m k' := by
  intro m
  induction m with
  | nil => simp [odLookup, if_neg hne]
  | cons q m ih =>
    simp only [List.cons_append, odLookup, List.append_eq]
    rw [ih]

theorem odLookup_insert_ne {α : Type} (m : List (String × α)) (k k' : String) (v : α)
    (hne : k ≠ k') : odLookup (odInsert m k v) k' = odLookup m k' := by
  by_cases hc : (m.any (fun p => p.1 == k)) = true
  · simp only [odInsert, hc, if_true]
    exact odLookup_update_ne k k' v hne m
  · have hcf : (m.any (fun p => p.1 == k)) = false := by
      cases hca : (m.any (fun p => p.1 == k)) with
      | false => rfl
      | true => exact absurd hca hc
    simp only [odInsert, hcf, Bool.false_eq_true, if_false]
    exact odLookup_append_single_ne k k' v hne m

theorem odApply_map_fst {α : Type} :
    ∀ (ps : List (String × α)) (m : List (String × α)),
    (odApply m ps).map Prod.fst =
      m.map Prod.fst ++ dedupSeen (m.map Prod.fst) (ps.map Prod.fst) := by
  intro ps
  induction ps with
  | nil => intro m; simp [odApply, dedupSeen]
  | cons p ps ih =>
    intro m
    show (odApply (odInsert m p.1 p.2) ps).map Prod.fst = _
    rw [ih (odInsert m p.1 p.2)]
    by_cases h : p.1 ∈ m.map Prod.fst
    · rw [odInsert_mem_map_fst m p.1 p.2 h]
      simp only [List.map_cons, dedupSeen, if_pos h]
    · rw [odInsert_not_mem_map_fst m p.1 p.2 h]
      simp only [List.map_cons, dedupSeen, if_neg h]
      rw [List.append_assoc]
      simp

theorem dedupSeen_eq_dedupFirst {α : Type} [DecidableEq α] :
    ∀ (l seen : List α), dedupSeen seen l = dedupFirst (l.filter (fun x => x ∉ seen)) := by
  intro l
  induction l with
  | nil => intro seen; simp [dedupSeen, dedupFirst]
  | cons a l ih =>
    intro seen
    by_cases h : a ∈ seen
    · have hfc : (a :: l).filter (fun x => x ∉ seen) = l.filter (fun x => x ∉ seen) := by
        simp [List.filter_cons, h]
      simp only [dedupSeen, if_pos h, hfc]
      exact ih seen
    · have hpred :
          (l.filter (fun x => x ∉ seen)).filter (fun x => x ≠ a) =
          l.filter (fun x => x ∉ seen ++ [a]) := by
        rw [List.filter_filter]
        apply List.filter_congr
        intro x _
        simp [List.mem_append, not_or, and_comm]
      have hfc : (a :: l).filter (fun x => x ∉ seen) = a :: l.filter (fun x => x ∉ seen) := by
        simp [List.filter_cons, h]
      simp only [dedupSeen, if_neg h]
      rw [ih (seen ++ [a]), hfc, dedupFirst_cons, hpred]

theorem odLookup_append {α : Type} :
    ∀ (l1 l2 : List (String × α)) (k : String),
    odLookup (l1 ++ l2) k =
      match odLookup l1 k with
      | some v => some v
      | Option.none => odLookup l2 k := by
  intro l1
  induction l1 with
  | nil => intro l2 k; rfl
  | cons q l1 ih =>
    intro l2 k
    simp only [List.cons_append, odLookup]
    by_cases hq : q.1 = k
    · simp [hq]
    · simp only [if_neg hq]
      exact ih l2 k

theorem odApply_lookup {α : Type} :
    ∀ (ps : List (String × α)) (m : List (String × α)) (k : String),
    odLookup (odApply m ps) k =
      match odLookup ps.reverse k with
      | some v => some v
      | Option.none => odLookup m k := by
  intro ps
  induction ps with
  | nil => intro m k; rfl
  | cons p ps ih =>
    intro m k
    show odLookup (odApply (odInsert m p.1 p.2) ps) k = _
    rw [ih (odInsert m p.1 p.2) k, List.reverse_cons, odLookup_append ps.reverse [p] k]
    cases hl : odLookup ps.reverse k with
    | some v => rfl
    | none =>
      by_cases hk : p.1 = k
      · have h1 : odLookup [p] k = some p.2 := by simp [odLookup, hk]
        rw [h1]
        rw [← hk]
        exact odLookup_insert_self m p.1 p.2
      · have h1 : odLookup [p] k = Option.none := by simp [odLookup, hk]
        rw [h1, odLookup_insert_ne m p.1 k p.2 hk]

theorem assemble_eq :
    ∀ (records : List PyDict) (out : List (String × OutEntry)),
    assemble records out =
      match builtEntries records with
      | Except.error e => Except.error e
      | Except.ok ps => Except.ok (odApply out ps) := by
  intro records
  induction records with
  | nil => intro out; rfl
  | cons item rest ih =>
    intro out
    simp only [assemble, builtEntries]
    cases hskip : (isNone (pyGet item "case_id" PyVal.none) ||
        isNone (pyGet item "index" PyVal.none)) with
    | true =>
      simp only [if_true]
      exact ih out
    | false =>
      simp only [Bool.false_eq_true, if_false]
      cases hqa : build_qa_pairs item with
      | error e => rfl
      | ok qa =>
        dsimp only
        rw [ih (odInsert out (datasetKey (pyGet item "case_id" PyVal.none)
          (pyGet item "index" PyVal.none))
          (OutEntry.mk (datasetKey (pyGet item "case_id" PyVal.none)
            (pyGet item "index" PyVal.none) ++ ".mp4")
            (pyOr (pyGet item "tools" (PyVal.list [])) (PyVal.list [])) qa))]
        cases builtEntries rest with
        | error e => rfl
        | ok ps => rfl

/-- Claim C7: the assembled dataset is an insertion-ordered mapping over
the eligible records' `(key, entry)` stream: its key sequence is the
first-occurrence deduplication of the stream's keys (so keys are unique
and sit at their first-insertion position, one entry per eligible record
after deduplication), and each key maps to the entry of the last record
in processing order that produced it. -/
theorem c7_dataset_lww (records : List PyDict) (out ps : List (String × OutEntry))
    (h : assemble records [] = Except.ok out)
    (hp : builtEntries records = Except.ok ps) :
    out.map Prod.fst = dedupFirst (ps.map Prod.fst) ∧
    (out.map Prod.fst).Nodup ∧
    ∀ k, odLookup out k = odLookup ps.reverse k := by
  rw [assemble_eq records [], hp] at h
  simp only [Except.ok.injEq] at h
  subst h
  have hkeys : (odApply [] ps).map Prod.fst = dedupFirst (ps.map Prod.fst) := by
    rw [odApply_map_fst ps []]
    simp only [List.map_nil, List.nil_append, dedupSeen_eq_dedupFirst]
    congr 1
    apply List.filter_eq_self.mpr
    intro x _
    simp
  refine ⟨hkeys, ?_, ?_⟩
  · rw [hkeys]
    exact dedupFirst_nodup _
  · intro k
    rw [odApply_lookup ps [] k]
    cases hl : odLookup ps.reverse k with
    | some v => rfl
    | none => rfl

/-- Claim C7, witness: three eligible records, the first two colliding on
key `c_id1` — the dataset keeps one entry per distinct key in
first-insertion order, and `c_id1` resolves to the latest record's
entry. -/
theorem c7_witness :
    (match
      assemble
        [[("case_id", PyVal.str "c"), ("index", PyVal.int 1),
          ("groundtruth_taskname", PyVal.str "alpha")],
         [("case_id", PyVal.str "c"), ("index", PyVal.int 1),
          ("groundtruth_taskname", PyVal.str "beta")],
         [("case_id", PyVal.str "d"), ("index", PyVal.int 1)]] [],
      builtEntries
        [[("case_id", PyVal.str "c"), ("index", PyVal.int 1),
          ("groundtruth_taskname", PyVal.str "alpha")],
         [("case_id", PyVal.str "c"), ("index", PyVal.int 1),
          ("groundtruth_taskname", PyVal.str "beta")],
         [("case_id", PyVal.str "d"), ("index", PyVal.int 1)]] with
     | Except.ok out, Except.ok ps =>
       out.map Prod.fst = dedupFirst (ps.map Prod.fst) ∧
       odLookup out "c_id1" = odLookup ps.reverse "c_id1"
     | _, _ => False) :=
  ⟨(c7_dataset_lww
      [[("case_id", PyVal.str "c"), ("index", PyVal.int 1),
        ("groundtruth_taskname", PyVal.str "alpha")],
       [("case_id", PyVal.str "c"), ("index", PyVal.int 1),
        ("groundtruth_taskname", PyVal.str "beta")],
       [("case_id", PyVal.str "d"), ("index", PyVal.int 1)]] _ _ rfl rfl).1,
   (c7_dataset_lww
      [[("case_id", PyVal.str "c"), ("index", PyVal.int 1),
        ("groundtruth_taskname", PyVal.str "alpha")],
       [("case_id", PyVal.str "c"), ("index", PyVal.int 1),
        ("groundtruth_taskname", PyVal.str "beta")],
       [("case_id", PyVal.str "d"), ("index", PyVal.int 1)]] _ _ rfl rfl).2.2 "c_id1"⟩

theorem sortInsert_ne_nil (p : String × FileContent) :
    ∀ l : List (String × FileContent), sortInsert p l ≠ [] := by
  intro l
  cases l with
  | nil => simp [sortInsert]
  | cons q qs =>
    simp only [sortInsert]
    by_cases h : p.1 ≤ q.1 <;> simp [h]

theorem sortFiles_eq_nil_iff (files : List (String × FileContent)) :
    sortFiles files = [] ↔ files = [] := by
  cases files with
  | nil => simp [sortFiles]
  | cons p ps =>
    simp only [sortFiles]
    constructor
    · intro h
      exact absurd h (sortInsert_ne_nil p (sortFiles ps))
    · intro h
      cases h

/-- Claim C8: the run aborts with the fatal `SystemExit` exactly when no
file matches the glob pattern (and then no dataset is produced); each
matched file contributes its array's records when it parses as a JSON
array, one warning line naming the file when reading or parsing fails,
and nothing — with no error — when its top-level JSON is not an array,
independently of the other files. -/
theorem c8_loader (files : List (String × FileContent)) :
    ((∃ m, main_run files = RunResult.sysExit m) ↔ files = []) ∧
    load_records files = ((files.map fileRecs).flatten, files.filterMap fileWarn) := by
  constructor
  · constructor
    · rintro ⟨m, hm⟩
      cases hf : files with
      | nil => rfl
      | cons p ps =>
        rw [hf] at hm
        simp only [main_run] at hm
        have hne : sortFiles (p :: ps) ≠ [] := by
          intro h
          exact absurd ((sortFiles_eq_nil_iff (p :: ps)).mp h) (by simp)
        have hie : (sortFiles (p :: ps)).isEmpty = false := by
          cases hsf : sortFiles (p :: ps) with
          | nil => exact absurd hsf hne
          | cons q qs => rfl
        rw [hie] at hm
        simp only [Bool.false_eq_true, if_false] at hm
        cases has : assemble (load_records (sortFiles (p :: ps))).1 [] with
        | error e =>
          rw [has] at hm
          cases hm
        | ok out =>
          rw [has] at hm
          cases hm
    · intro h
      subst h
      exact ⟨"No merged_objdet_metadata_*.json files found. Place them in the repository.", rfl⟩
  · induction files with
    | nil => rfl
    | cons pc rest ih =>
      obtain ⟨path, c⟩ := pc
      cases c with
      | arr l => simp [load_records, fileRecs, fileWarn, ih]
      | nonArray => simp [load_records, fileRecs, fileWarn, ih]
      | readError e => simp [load_records, fileRecs, fileWarn, ih]

/-- Claim C8, witness: one array file, one unreadable file, one
non-array file — the records come from the array file alone and exactly
one warning names the failing file. -/
theorem c8_witness :
    load_records
      [("a.json", FileContent.arr [[("x", PyVal.int 1)]]),
       ("b.json", FileContent.readError "boom"),
       ("c.json", FileContent.nonArray)] =
    ([[("x", PyVal.int 1)]], ["Warning: failed to read b.json: boom"]) :=
  (c8_loader
    [("a.json", FileContent.arr [[("x", PyVal.int 1)]]),
     ("b.json", FileContent.readError "boom"),
     ("c.json", FileContent.nonArray)]).2.trans rfl

theorem dedupFirst_eq_dedupSeen {α : Type} [DecidableEq α] (l : List α) :
    dedupFirst l = dedupSeen [] l := by
  rw [dedupSeen_eq_dedupFirst]
  congr 1
  refine (List.filter_eq_self.mpr ?_).symm
  intro x _
  simp

/-- Claim C2, witness: six raw names with an underscore, an empty entry
and a duplicate collapse to the first three distinct normalized names,
joined with the three-entry policy. -/
theorem c2_witness :
    short_tools_text (strList
      ["vessel_sealer", "needle_driver", "", "needle_driver", "grasper", "scissors"]) =
      Except.ok "vessel sealer, needle driver, and grasper" :=
  (c2_short_tools_text_spec
    ["vessel_sealer", "needle_driver", "", "needle_driver", "grasper", "scissors"]).1.trans
    (by
      unfold spec_summarize spec_collect
      rw [dedupFirst_eq_dedupSeen]
      rfl)
